import Mathlib

/-!
Shallow embedding of the go-graphite metric client
(`graphite/metric.go` and the client file: options, `NewClient`,
`Submit`, `SubmitMetricsString`, `SendMetric`).

Go maps are embedded as association lists carrying an explicit iteration
order; Go slices, where aliasing matters, are embedded with an explicit
heap of backing arrays; Go channels are embedded as FIFO lists; panics
are embedded as `Option.none` or a dedicated result constructor.
-/

namespace GoGraphite

/-- Model of `MetricMetadata` from `metric.go`: a name path and a tag mapping.
The Go map `Tags` is embedded as its entry list in iteration order. -/
structure MetricMetadata where
  Name : List String
  Tags : List (String × String)
deriving DecidableEq, Repr

/-- Model of `Metric` from `metric.go`: the embedded `MetricMetadata` is flattened
(Go struct embedding promotes the fields), plus the value text and the
timestamp, kept as its Unix-seconds integer since `String()` only ever
uses `m.Timestamp.Unix()`. -/
structure Metric where
  Name : List String
  Tags : List (String × String)
  Value : String
  Timestamp : Int
deriving DecidableEq, Repr

/-- One `;key=value` clause of the wire line. -/
def tagClause (p : String × String) : String := ";" ++ p.1 ++ "=" ++ p.2

/-- Model of `Metric.String` from `metric.go`, mirroring the
`strings.Builder` loop.
`m.Name[0]` panics when the name sequence is empty: that is `none`. -/
def metricString? (m : Metric) : Option String :=
  match m.Name with
  | [] => none
  | n0 :: rest =>
    let s1 := rest.foldl (fun acc n => acc ++ "." ++ n) n0
    let s2 := m.Tags.foldl (fun acc p => acc ++ ";" ++ p.1 ++ "=" ++ p.2) s1
    some (s2 ++ " " ++ m.Value ++ " " ++ toString m.Timestamp)

/-- Model of `strings.ToLower`, embedded characterwise over the string's char
list. -/
def goToLower (s : String) : String := String.mk (s.data.map Char.toLower)

/-- Model of `MetricMetadata.SubMetric` at value level (list semantics of the
`append`; the aliasing of the slice backing array is modelled separately
below). -/
def MetricMetadata.SubMetric (m : MetricMetadata) (name : String)
    (tags : List (String × String)) : MetricMetadata :=
  { Name := m.Name ++ [goToLower name], Tags := tags }

/-- The dotted-name prefix of the wire line, in closed `join` form. -/
def namePrefix (n0 : String) (rest : List String) : String :=
  n0 ++ String.join (rest.map fun n => "." ++ n)

/-- The value-and-timestamp suffix of the wire line. -/
def valueTimeSuffix (m : Metric) : String :=
  " " ++ m.Value ++ " " ++ toString m.Timestamp

lemma stringJoin_foldl :
    ∀ (l : List String) (s : String),
      l.foldl (fun a b => a ++ b) s = s ++ String.join l := by
  intro l
  induction l with
  | nil =>
    intro s
    simp [String.join, String.append_empty]
  | cons x xs ih =>
    intro s
    show List.foldl (fun a b => a ++ b) (s ++ x) xs = s ++ String.join (x :: xs)
    rw [ih]
    have hc : String.join (x :: xs) = x ++ String.join xs := by
      show List.foldl (fun a b => a ++ b) ("" ++ x) xs = x ++ String.join xs
      rw [ih, String.empty_append]
    rw [hc, String.append_assoc]

lemma stringJoin_cons (x : String) (l : List String) :
    String.join (x :: l) = x ++ String.join l := by
  show List.foldl (fun a b => a ++ b) ("" ++ x) l = x ++ String.join l
  rw [stringJoin_foldl, String.empty_append]

lemma foldl_append_eq_join {α : Type} (f : α → String) :
    ∀ (l : List α) (s : String),
      l.foldl (fun acc x => acc ++ f x) s = s ++ String.join (l.map f) := by
  intro l
  induction l with
  | nil =>
    intro s
    simp [String.join, String.append_empty]
  | cons x xs ih =>
    intro s
    simp only [List.foldl_cons, List.map_cons]
    rw [ih, stringJoin_cons, ← String.append_assoc]

/-- Closed form of `metricString?` for a non-empty name: name prefix,
then the tag clauses in iteration order, then value and timestamp. -/
lemma metricString?_eq_join (m : Metric) (n0 : String) (rest : List String)
    (h : m.Name = n0 :: rest) :
    metricString? m =
      some (namePrefix n0 rest ++ String.join (m.Tags.map tagClause) ++
        valueTimeSuffix m) := by
  unfold metricString?
  rw [h]
  have h1 : (fun (acc : String) (n : String) => acc ++ "." ++ n) =
      (fun (acc : String) (n : String) => acc ++ ("." ++ n)) := by
    funext a b
    rw [String.append_assoc]
  have h2 : (fun (acc : String) (p : String × String) =>
      acc ++ ";" ++ p.1 ++ "=" ++ p.2) =
      (fun (acc : String) (p : String × String) => acc ++ tagClause p) := by
    funext a p
    simp [tagClause, String.append_assoc]
  simp only [h1, h2]
  rw [foldl_append_eq_join (fun n => "." ++ n) rest n0]
  rw [foldl_append_eq_join tagClause]
  simp [namePrefix, valueTimeSuffix, String.append_assoc]

/-! ## Client options and construction -/

/-- Constant `DefaultMaxBufferSize` from the client file. -/
def DefaultMaxBufferSize : Int := 1000

/-- Constant `DefaultMaxMetricsPerMessage` from the client file. -/
def DefaultMaxMetricsPerMessage : Int := 1

/-- Constant `DefaultMaxTries` from the client file. -/
def DefaultMaxTries : Int := 3

/-- Model of `clientOptions` from the client file.  `Conn` keeps only its nil-ness
(the stream itself is modelled by a write oracle below); the integer
fields are Go `int`s, kept as `Int` so that negative inputs are
representable. -/
structure clientOptions where
  MaxBufferSize : Int
  MaxMetricsPerMessage : Int
  MaxTries : Int
  Conn : Option Unit
  Addr : String
deriving DecidableEq, Repr

/-- The zero value `clientOptions\x7b\x7d` that `NewClient` starts from. -/
def zeroClientOptions : clientOptions :=
  { MaxBufferSize := 0, MaxMetricsPerMessage := 0, MaxTries := 0,
    Conn := none, Addr := "" }

/-- A `ClientOption` mutates the options record. -/
def ClientOption := clientOptions → clientOptions

/-- Option `WithMaxBufferSize`. -/
def WithMaxBufferSize (n : Int) : ClientOption :=
  fun c => { c with MaxBufferSize := n }

/-- Option `WithMaxMetricsPerMessage`. -/
def WithMaxMetricsPerMessage (n : Int) : ClientOption :=
  fun c => { c with MaxMetricsPerMessage := n }

/-- Option `WithMaxTries`. -/
def WithMaxTries (n : Int) : ClientOption :=
  fun c => { c with MaxTries := n }

/-- Option `WithConnection` (a non-nil stream handle). -/
def WithConnection : ClientOption :=
  fun c => { c with Conn := some () }

/-- Option `WithAddress`. -/
def WithAddress (addr : String) : ClientOption :=
  fun c => { c with Addr := addr }

/-- Model of `clientOptions.setDefaults`: each field equal to `0` is replaced by
its default, then the `Conn == nil && Addr == ""` check returns
`ErrNoAddress` (the `error` case). -/
def setDefaults (c : clientOptions) : Except Unit clientOptions :=
  let c1 := if c.MaxBufferSize = 0
    then { c with MaxBufferSize := DefaultMaxBufferSize } else c
  let c2 := if c1.MaxMetricsPerMessage = 0
    then { c1 with MaxMetricsPerMessage := DefaultMaxMetricsPerMessage } else c1
  let c3 := if c2.MaxTries = 0
    then { c2 with MaxTries := DefaultMaxTries } else c2
  if c3.Conn = none ∧ c3.Addr = "" then Except.error () else Except.ok c3

/-- Outcome of `NewClient`: the `ErrNoAddress` error, a Go runtime panic
from `make(chan Metric, n)` with negative `n`, or a client holding the
settled options. -/
inductive NewClientResult where
  | err : NewClientResult
  | panicked : NewClientResult
  | ok : clientOptions → NewClientResult
deriving DecidableEq, Repr

/-- Model of `NewClient` after the option functions have been folded over the zero
value: run `setDefaults`, then `make(chan Metric, MaxBufferSize)`, which
panics when the capacity is negative. -/
def NewClientFrom (co : clientOptions) : NewClientResult :=
  match setDefaults co with
  | Except.error _ => NewClientResult.err
  | Except.ok c =>
    if c.MaxBufferSize < 0 then NewClientResult.panicked
    else NewClientResult.ok c

/-- Model of `NewClient`: apply every option to the zero `clientOptions` value,
then construct. -/
def NewClient (opts : List ClientOption) : NewClientResult :=
  NewClientFrom (opts.foldl (fun c f => f c) zeroClientOptions)

/-! ## The queue and `SendMetric`

The buffered channel `queuedMetrics` is embedded as a FIFO list bounded
by `MaxBufferSize`.  `SendMetric` is a two-branch `select`: the send
branch fires only when a slot is free, the `ctx.Done()` branch only when
the context is cancelled; which one fires when both are ready is
nondeterministic, so `SendMetric` is a relation, not a function. -/

/-- Result of one `SendMetric` call: `ok` returns nil after the sample
went into the queue, `ctxError` returns `ctx.Err()`; both carry the
queue contents after the call. -/
inductive SendOutcome where
  | ok : List Metric → SendOutcome
  | ctxError : List Metric → SendOutcome
deriving DecidableEq, Repr

/-- Relation for the `select` in `SendMetric`: `send` requires a free queue slot and
enqueues the sample constructed from the metadata, value and timestamp;
`cancel` requires the context to be done and leaves the queue alone. -/
inductive SendMetricRel (cap : Nat) (meta : MetricMetadata) (v : String)
    (ts : Int) (ctxDone : Bool) (q : List Metric) : SendOutcome → Prop where
  | send (hroom : q.length < cap) :
      SendMetricRel cap meta v ts ctxDone q
        (SendOutcome.ok (q ++ [{ Name := meta.Name, Tags := meta.Tags,
                                 Value := v, Timestamp := ts }]))
  | cancel (hdone : ctxDone = true) :
      SendMetricRel cap meta v ts ctxDone q (SendOutcome.ctxError q)

/-! ## Batch formation in `Submit`

One iteration of the `Submit` loop first blocks on the channel for one
metric (modelled: `none` when the queue is empty, i.e. the loop would
sit in the blocking `select`), then drains up to
`MaxMetricsPerMessage - 1` further already-available metrics through the
non-blocking `select` with a `default` branch. -/

/-- Batch formation of one `Submit` iteration over the snapshot `q` of
available metrics: `none` when the queue is empty (the loop blocks),
otherwise the batch and the remaining queue. -/
def dequeueBatch (n : Nat) (q : List Metric) :
    Option (List Metric × List Metric) :=
  match q with
  | [] => none
  | m :: rest => some (m :: rest.take (n - 1), rest.drop (n - 1))

/-! ## `SubmitMetricsString` and the `Submit` loop

The stream's write behaviour is an oracle `w : Nat → Option String`
giving the outcome of the k-th write attempt overall: `none` is a
successful `Conn.Write`, `some e` a write error with message `e`. -/

/-- Model of `strings.Join(metricStrings, "\n")`. -/
def joinLines (xs : List String) : String := String.intercalate "\n" xs

/-- Model of `strings.HasSuffix(str, "\n")`: the last character is a newline. -/
def hasNLSuffix (s : String) : Bool :=
  s.data.getLast? == some (Char.ofNat 10)

/-- The line-termination guard at the top of `SubmitMetricsString`. -/
def ensureNL (s : String) : String :=
  if hasNLSuffix s then s else s ++ "\n"

/-- Loop body of the retry `for` loop of `SubmitMetricsString`, counting attempts.
`i` is the index of the next attempt, `fuel` the remaining iterations,
`lastErr` the current value of the `err` variable.  Returns the number
of attempts actually made and either success or the final `err`. -/
def smsAux (w : Nat → Option String) :
    Nat → Nat → Option String → Nat × Except (Option String) Unit
  | _, 0, lastErr => (0, Except.error lastErr)
  | i, fuel + 1, _ =>
    match w i with
    | none => (1, Except.ok ())
    | some e =>
      let r := smsAux w (i + 1) fuel (some e)
      (r.1 + 1, r.2)

/-- Model of `SubmitMetricsString` with write attempts starting at oracle index
`0`: the retry loop, then on exhaustion the error wrapping the reported
try count `maxTries` and the last underlying write error. -/
def submitMetricsString (maxTries : Nat) (w : Nat → Option String) :
    Nat × Except (Nat × Option String) Unit :=
  let r := smsAux w 0 maxTries none
  (r.1, r.2.mapError fun last => (maxTries, last))

/-- Result of one iteration of the `Submit` loop: the loop blocks on an
empty queue, or writes the batch message successfully, or exhausts its
retries and returns the wrapped error.  `sent`/`failed` carry the
attempts made and the remaining queue; `sent` also carries the exact
message handed to `Conn.Write`. -/
inductive StepResult where
  | blocked : StepResult
  | sent : String → Nat → List Metric → StepResult
  | failed : Nat × Option String → Nat → List Metric → StepResult
deriving DecidableEq, Repr

/-- Serialize every metric of a batch in order; a `Metric.String` panic
(empty name) propagates. -/
def batchStrings : List Metric → Option (List String)
  | [] => some []
  | m :: rest =>
    match metricString? m, batchStrings rest with
    | some s, some ss => some (s :: ss)
    | _, _ => none

/-- One iteration of the `Submit` loop: form the batch, serialize each
metric (`none` = the `Metric.String` panic on an empty name), join with
newlines, ensure the trailing newline, and run `SubmitMetricsString`
with the oracle shifted to `widx`, the number of writes already made. -/
def submitStep (n maxTries : Nat) (w : Nat → Option String) (widx : Nat)
    (q : List Metric) : Option StepResult :=
  match dequeueBatch n q with
  | none => some StepResult.blocked
  | some (batch, rest) =>
    match batchStrings batch with
    | none => none
    | some strs =>
      let s := ensureNL (joinLines strs)
      let r := submitMetricsString maxTries (fun i => w (widx + i))
      match r.2 with
      | Except.ok _ => some (StepResult.sent s r.1 rest)
      | Except.error e => some (StepResult.failed e r.1 rest)

/-- Final state of a fuel-bounded run of the `Submit` loop: either the
loop is sitting blocked on an empty queue, or it returned the wrapped
write-exhaustion error.  Both carry the remaining queue and the total
number of write attempts made over the whole run. -/
inductive LoopResult where
  | blocked : List Metric → Nat → LoopResult
  | failed : Nat × Option String → List Metric → Nat → LoopResult
deriving DecidableEq, Repr

/-- Model of the `for` loop of `Submit` over a snapshot queue with no concurrent
arrivals, bounded by `fuel` iterations (`none` = fuel ran out or a
serialization panic). -/
def submitLoop (n maxTries : Nat) (w : Nat → Option String) :
    Nat → Nat → List Metric → Option LoopResult
  | 0, _, _ => none
  | fuel + 1, widx, q =>
    match submitStep n maxTries w widx q with
    | none => none
    | some StepResult.blocked => some (LoopResult.blocked q widx)
    | some (StepResult.sent _ att rest) =>
      submitLoop n maxTries w fuel (widx + att) rest
    | some (StepResult.failed e att rest) =>
      some (LoopResult.failed e rest (widx + att))

/-! ## Go slices with backing arrays, for `SubMetric`

`SubMetric` builds the child name with `append(m.Name, …)`.  Go `append`
writes in place when the backing array has spare capacity and allocates
a fresh array (doubling the capacity of small slices) only when it is
full, so the child can share the parent's backing array.  The heap is
the list of backing arrays; a slice is an array id plus a length, and
its capacity is the backing array's length. -/

/-- A Go slice header (offset is always 0 in this program). -/
structure GoSlice where
  arr : Nat
  len : Nat
deriving DecidableEq, Repr

/-- The heap: backing array contents, indexed by array id; each list has
length equal to the array's capacity. -/
abbrev Heap := List (List String)

/-- The backing array of a slice. -/
def backing (h : Heap) (s : GoSlice) : List String :=
  List.getD h s.arr []

/-- The elements a slice makes visible. -/
def sliceView (h : Heap) (s : GoSlice) : List String :=
  (backing h s).take s.len

/-- Go's capacity growth for small slices: doubling, from 1. -/
def growCap (c : Nat) : Nat := if c = 0 then 1 else 2 * c

/-- Pad a backing array with zero values up to the capacity. -/
def padTo (l : List String) (n : Nat) : List String :=
  l ++ List.replicate (n - l.length) ""

/-- Go `append(s, x)`: write in place when `len < cap`, else allocate a
grown backing array holding the visible elements plus `x`. -/
def goAppend (h : Heap) (s : GoSlice) (x : String) : Heap × GoSlice :=
  if s.len < (backing h s).length then
    (List.set h s.arr ((backing h s).set s.len x),
     { arr := s.arr, len := s.len + 1 })
  else
    (h ++ [padTo ((backing h s).take s.len ++ [x])
            (growCap (backing h s).length)],
     { arr := h.length, len := s.len + 1 })

/-- Variant of `MetricMetadata` with the slice-level name. -/
structure MetricMetadataS where
  Name : GoSlice
  Tags : List (String × String)
deriving DecidableEq, Repr

/-- Model of `MetricMetadata.SubMetric` at slice level:
`append(m.Name, strings.ToLower(name))` plus the supplied tags. -/
def SubMetricS (h : Heap) (m : MetricMetadataS) (name : String)
    (tags : List (String × String)) : Heap × MetricMetadataS :=
  ((goAppend h m.Name (goToLower name)).1,
   { Name := (goAppend h m.Name (goToLower name)).2, Tags := tags })

/-! ## Concrete samples used in witnesses and counterexamples -/

/-- A minimal sample. -/
def sampleA : Metric := { Name := ["a"], Tags := [], Value := "1", Timestamp := 0 }

/-- The spec's concrete-scenario metadata: name `["cpu","idle"]`, tag
`host=a`. -/
def cpuIdleMeta : MetricMetadata :=
  { Name := ["cpu", "idle"], Tags := [("host", "a")] }

/-- First sample of the concrete scenario. -/
def cpuIdle1 : Metric :=
  { Name := ["cpu", "idle"], Tags := [("host", "a")], Value := "1",
    Timestamp := 1700000000 }

/-- Second sample of the concrete scenario. -/
def cpuIdle2 : Metric := { cpuIdle1 with Value := "2" }

/-- Third sample of the concrete scenario. -/
def cpuIdle3 : Metric := { cpuIdle1 with Value := "3" }

/-- A two-entry tag mapping in one iteration order. -/
def tagsAB : List (String × String) := [("a", "1"), ("b", "2")]

/-- The same two-entry tag mapping in the other iteration order. -/
def tagsBA : List (String × String) := [("b", "2"), ("a", "1")]

/-- A metric carrying `tagsAB`. -/
def mTagsAB : Metric := { Name := ["x"], Tags := tagsAB, Value := "1", Timestamp := 0 }

/-- The same metric carrying `tagsBA`. -/
def mTagsBA : Metric := { Name := ["x"], Tags := tagsBA, Value := "1", Timestamp := 0 }

/-- A metric with an empty name sequence. -/
def emptyNameMetric : Metric := { Name := [], Tags := [], Value := "1", Timestamp := 0 }

/-- Slice-level chain: root metadata `["cpu"]`, backing array full. -/
def ceRoot : MetricMetadataS := { Name := { arr := 0, len := 1 }, Tags := [] }

/-- Step `ceRoot.SubMetric("idle", nil)`: reallocates to capacity 2. -/
def ceStep1 : Heap × MetricMetadataS := SubMetricS [["cpu"]] ceRoot "idle" []

/-- Step `.SubMetric("load", nil)` on that child: reallocates to capacity 4,
leaving one spare slot. -/
def ceStep2 : Heap × MetricMetadataS := SubMetricS ceStep1.1 ceStep1.2 "load" []

/-- First grandchild `.SubMetric("avg", …)`: writes `"avg"` into the
spare slot of the shared backing array. -/
def ceChild1 : Heap × MetricMetadataS :=
  SubMetricS ceStep2.1 ceStep2.2 "avg" [("k", "v")]

/-- Second grandchild `.SubMetric("max", nil)` from the same parent:
overwrites the same spare slot. -/
def ceChild2 : Heap × MetricMetadataS := SubMetricS ceChild1.1 ceStep2.2 "max" []

/-! ## Claim theorems -/

/-- C9: serializing a `Metric` is only defined for a non-empty name
sequence; `Metric.String` indexes `m.Name[0]` unconditionally, so with
an empty name sequence it panics (modelled `none`) rather than
returning an error value or an empty line. -/
theorem c9_empty_name_panics (m : Metric) :
    metricString? m = none ↔ m.Name = [] := by
  cases hm : m.Name with
  | nil => simp [metricString?, hm]
  | cons a l => simp [metricString?, hm]

/-- Witness for C9 at a concrete metric with an empty name. -/
theorem c9_empty_name_panics_witness :
    metricString? emptyNameMetric = none ↔ emptyNameMetric.Name = [] :=
  c9_empty_name_panics emptyNameMetric

/-- C5: for a metric with a non-empty name sequence the wire line is the
name segments joined by dots, then one `;key=value` clause per tag (in
iteration order), then a space, the value text, a space, and the
decimal Unix timestamp; nothing (in particular no newline) is appended
after the timestamp. -/
theorem c5_wire_format (m : Metric) (n0 : String) (rest : List String)
    (h : m.Name = n0 :: rest) :
    metricString? m =
      some (namePrefix n0 rest ++ String.join (m.Tags.map tagClause) ++
        valueTimeSuffix m) :=
  metricString?_eq_join m n0 rest h

/-- Witness for C5 at a concrete metric. -/
theorem c5_wire_format_witness :
    metricString? cpuIdle1 =
      some (namePrefix "cpu" ["idle"] ++
        String.join (cpuIdle1.Tags.map tagClause) ++
        valueTimeSuffix cpuIdle1) :=
  c5_wire_format cpuIdle1 "cpu" ["idle"] rfl

/-- C2 counterexample: the same tag mapping (entry lists that are
permutations of one another, as a Go map presents them in different
iteration orders) serializes to different wire lines, and the emitted
order follows iteration order, not the sorted-by-key order. -/
theorem c2_counterexample :
    tagsAB.Perm tagsBA ∧
    metricString? mTagsAB ≠ metricString? mTagsBA ∧
    metricString? mTagsBA = some "x;b=2;a=1 1 0" := by
  refine ⟨by decide, by decide, by decide⟩

/-- C2 (amended): serialization is deterministic only up to the tag
mapping's iteration order.  Two iteration orders of the same mapping
yield the same multiset of `;key=value` clauses and identical
name/value/timestamp parts, the clauses appearing exactly in iteration
order; the lines coincide whenever the mapping has at most one entry.
Sorted-by-key emission is not guaranteed. -/
theorem c2_amended_iteration_order (m : Metric)
    (t1 t2 : List (String × String)) (hp : t1.Perm t2) :
    (t1.map tagClause).Perm (t2.map tagClause) ∧
    (∀ n0 rest, m.Name = n0 :: rest →
      metricString? { m with Tags := t1 } =
        some (namePrefix n0 rest ++ String.join (t1.map tagClause) ++
          valueTimeSuffix m) ∧
      metricString? { m with Tags := t2 } =
        some (namePrefix n0 rest ++ String.join (t2.map tagClause) ++
          valueTimeSuffix m)) ∧
    (t1.length ≤ 1 →
      metricString? { m with Tags := t1 } =
        metricString? { m with Tags := t2 }) := by
  refine ⟨hp.map tagClause, ?_, ?_⟩
  · intro n0 rest h
    exact ⟨metricString?_eq_join _ n0 rest h, metricString?_eq_join _ n0 rest h⟩
  · intro hlen
    have ht : t1 = t2 := by
      cases t1 with
      | nil => exact List.Perm.nil_eq hp
      | cons a l =>
        cases l with
        | nil => exact List.singleton_perm.mp hp
        | cons b l2 => simp at hlen
    rw [ht]

/-- Witness for C2's amended theorem at a concrete permutation. -/
theorem c2_amended_iteration_order_witness :
    (tagsAB.map tagClause).Perm (tagsBA.map tagClause) :=
  (c2_amended_iteration_order sampleA tagsAB tagsBA (by decide)).1

/-- C6: one `Submit`-loop iteration blocks (pends in the `select`) on an
empty queue; on a non-empty queue the batch it forms is non-empty,
holds at most `MaxMetricsPerMessage` samples, and consists of exactly a
prefix of the already-available samples (the rest stay queued), so it
never waits for the batch to fill. -/
theorem c6_batch_formation (n : Nat) (q : List Metric) :
    (q = [] → dequeueBatch n q = none) ∧
    (∀ b r, dequeueBatch n q = some (b, r) →
      b ≠ [] ∧ (1 ≤ n → b.length ≤ n) ∧ b ++ r = q) := by
  constructor
  · intro h
    subst h
    rfl
  · intro b r h
    cases q with
    | nil => simp [dequeueBatch] at h
    | cons m rest =>
      simp only [dequeueBatch, Option.some.injEq, Prod.mk.injEq] at h
      obtain ⟨hb, hr⟩ := h
      subst hb
      subst hr
      refine ⟨by simp, ?_, ?_⟩
      · intro hn
        simp only [List.length_cons, List.length_take]
        omega
      · simp [List.take_append_drop]

/-- Witness for C6 at a concrete two-slot batch. -/
theorem c6_batch_formation_witness :
    ([sampleA] : List Metric) ≠ [] ∧
    (1 ≤ 2 → ([sampleA] : List Metric).length ≤ 2) ∧
    ([sampleA] : List Metric) ++ [] = [sampleA] :=
  (c6_batch_formation 2 [sampleA]).2 [sampleA] [] (by decide)

/-- C7: each `SendMetric` call either returns nil having appended the
constructed sample to the queue, or returns the cancellation error with
the queue exactly as it was; no outcome both enqueues and reports
cancellation. -/
theorem c7_sendmetric_outcomes (cap : Nat) (meta : MetricMetadata)
    (v : String) (ts : Int) (d : Bool) (q : List Metric) (o : SendOutcome)
    (h : SendMetricRel cap meta v ts d q o) :
    (∀ q2, o = SendOutcome.ok q2 →
      q2 = q ++ [{ Name := meta.Name, Tags := meta.Tags, Value := v,
                   Timestamp := ts }]) ∧
    (∀ q2, o = SendOutcome.ctxError q2 → q2 = q ∧ d = true) := by
  cases h with
  | send hroom =>
    refine ⟨?_, ?_⟩
    · intro q2 hq
      injection hq with h1
      exact h1.symm
    · intro q2 hq
      simp at hq
  | cancel hdone =>
    refine ⟨?_, ?_⟩
    · intro q2 hq
      simp at hq
    · intro q2 hq
      injection hq with h1
      exact ⟨h1.symm, hdone⟩

/-- Witness for C7: a concrete successful enqueue on an empty queue. -/
theorem c7_sendmetric_outcomes_witness :
    (∀ q2, SendOutcome.ok ([] ++ [sampleA]) = SendOutcome.ok q2 →
      q2 = [] ++ [sampleA]) ∧
    (∀ q2, SendOutcome.ok ([] ++ [sampleA]) = SendOutcome.ctxError q2 →
      q2 = [] ∧ false = true) :=
  c7_sendmetric_outcomes 10 { Name := ["a"], Tags := [] } "1" 0 false [] _
    (SendMetricRel.send (by decide))

/-- Closed form of `setDefaults`: the error depends only on `Conn` and
`Addr`, and each integer field is defaulted exactly when it equals 0. -/
lemma setDefaults_spec (co : clientOptions) :
    setDefaults co =
      if co.Conn = none ∧ co.Addr = "" then Except.error ()
      else Except.ok
        { MaxBufferSize :=
            if co.MaxBufferSize = 0 then DefaultMaxBufferSize
            else co.MaxBufferSize,
          MaxMetricsPerMessage :=
            if co.MaxMetricsPerMessage = 0 then DefaultMaxMetricsPerMessage
            else co.MaxMetricsPerMessage,
          MaxTries := if co.MaxTries = 0 then DefaultMaxTries else co.MaxTries,
          Conn := co.Conn, Addr := co.Addr } := by
  unfold setDefaults
  by_cases h1 : co.MaxBufferSize = 0 <;>
    by_cases h2 : co.MaxMetricsPerMessage = 0 <;>
      by_cases h3 : co.MaxTries = 0 <;>
        simp [h1, h2, h3]

/-- C8: construction returns the configuration error exactly when
neither a stream nor an address was supplied; when it returns a client,
each option equal to 0 (in particular every unset option) has been
replaced by its default (1000 buffered samples, 1 sample per message,
3 write tries) and every non-zero option is kept as given. -/
theorem c8_construction_defaults (co : clientOptions) :
    (NewClientFrom co = NewClientResult.err ↔
      co.Conn = none ∧ co.Addr = "") ∧
    (∀ c, NewClientFrom co = NewClientResult.ok c →
      c.MaxBufferSize =
        (if co.MaxBufferSize = 0 then DefaultMaxBufferSize
         else co.MaxBufferSize) ∧
      c.MaxMetricsPerMessage =
        (if co.MaxMetricsPerMessage = 0 then DefaultMaxMetricsPerMessage
         else co.MaxMetricsPerMessage) ∧
      c.MaxTries = (if co.MaxTries = 0 then DefaultMaxTries
         else co.MaxTries) ∧
      c.Conn = co.Conn ∧ c.Addr = co.Addr) := by
  unfold NewClientFrom
  rw [setDefaults_spec]
  by_cases hc : co.Conn = none ∧ co.Addr = ""
  · simp [hc]
  · simp only [hc, if_false]
    constructor
    · constructor
      · intro h
        split at h <;> split at h <;> simp at h
      · intro h
        exact h.elim
    · intro c hok
      by_cases hneg :
          (if co.MaxBufferSize = 0 then DefaultMaxBufferSize
           else co.MaxBufferSize) < 0
      · simp [hneg] at hok
      · simp only [hneg, if_false] at hok
        injection hok with h
        subst h
        simp

/-- Witness for C8: options 0/5/0 with a stream default to 1000/5/3. -/
theorem c8_construction_defaults_witness :
    ({ MaxBufferSize := 1000, MaxMetricsPerMessage := 5, MaxTries := 3,
       Conn := some (), Addr := "" } : clientOptions).MaxBufferSize =
      (if (0 : Int) = 0 then DefaultMaxBufferSize else 0) ∧
    ({ MaxBufferSize := 1000, MaxMetricsPerMessage := 5, MaxTries := 3,
       Conn := some (), Addr := "" } : clientOptions).MaxMetricsPerMessage =
      (if (5 : Int) = 0 then DefaultMaxMetricsPerMessage else 5) ∧
    ({ MaxBufferSize := 1000, MaxMetricsPerMessage := 5, MaxTries := 3,
       Conn := some (), Addr := "" } : clientOptions).MaxTries =
      (if (0 : Int) = 0 then DefaultMaxTries else 0) ∧
    ({ MaxBufferSize := 1000, MaxMetricsPerMessage := 5, MaxTries := 3,
       Conn := some (), Addr := "" } : clientOptions).Conn = some () ∧
    ({ MaxBufferSize := 1000, MaxMetricsPerMessage := 5, MaxTries := 3,
       Conn := some (), Addr := "" } : clientOptions).Addr = "" :=
  (c8_construction_defaults
    { MaxBufferSize := 0, MaxMetricsPerMessage := 5, MaxTries := 0,
      Conn := some (), Addr := "" }).2
    { MaxBufferSize := 1000, MaxMetricsPerMessage := 5, MaxTries := 3,
      Conn := some (), Addr := "" } (by decide)

/-- C10: only the exact value 0 counts as unset — every negative option
value survives `setDefaults` unchanged — and constructing a client with
a stream and a negative `MaxBufferSize` panics in
`make(chan Metric, n)` instead of returning a configuration error. -/
theorem c10_negative_options (co : clientOptions) :
    (∀ c, setDefaults co = Except.ok c →
      (co.MaxBufferSize < 0 → c.MaxBufferSize = co.MaxBufferSize) ∧
      (co.MaxMetricsPerMessage < 0 →
        c.MaxMetricsPerMessage = co.MaxMetricsPerMessage) ∧
      (co.MaxTries < 0 → c.MaxTries = co.MaxTries)) ∧
    (co.MaxBufferSize < 0 → co.Conn ≠ none →
      NewClientFrom co = NewClientResult.panicked) := by
  constructor
  · intro c hok
    rw [setDefaults_spec] at hok
    by_cases hc : co.Conn = none ∧ co.Addr = ""
    · simp [hc] at hok
    · simp only [hc, if_false, Except.ok.injEq] at hok
      subst hok
      refine ⟨?_, ?_, ?_⟩
      · intro hneg
        simp [show co.MaxBufferSize ≠ 0 by omega]
      · intro hneg
        simp [show co.MaxMetricsPerMessage ≠ 0 by omega]
      · intro hneg
        simp [show co.MaxTries ≠ 0 by omega]
  · intro hneg hconn
    unfold NewClientFrom
    rw [setDefaults_spec]
    have hc : ¬(co.Conn = none ∧ co.Addr = "") := by
      intro h
      exact hconn h.1
    simp only [hc, if_false]
    have hb : (if co.MaxBufferSize = 0 then DefaultMaxBufferSize
        else co.MaxBufferSize) < 0 := by
      simp [show ¬(co.MaxBufferSize = 0) from by omega]
      omega
    simp [hb]

/-- Witness for C10: `MaxBufferSize = -1` with a stream panics. -/
theorem c10_negative_options_witness :
    NewClientFrom
      { MaxBufferSize := -1, MaxMetricsPerMessage := 0, MaxTries := 0,
        Conn := some (), Addr := "" } = NewClientResult.panicked :=
  (c10_negative_options
    { MaxBufferSize := -1, MaxMetricsPerMessage := 0, MaxTries := 0,
      Conn := some (), Addr := "" }).2 (by decide) (by decide)

/-- C1: with `MaxBufferSize = 10`, `MaxMetricsPerMessage = 2`,
`MaxTries = 1`, after enqueuing the three `cpu.idle;host=a` samples with
values `1`, `2`, `3` at timestamp 1700000000, one iteration of the
`Submit` loop writes exactly
`"cpu.idle;host=a 1 1700000000\ncpu.idle;host=a 2 1700000000\n"` (two
lines joined by a newline plus the trailing newline) on its single
successful attempt and leaves exactly the third sample queued. -/
theorem c1_concrete_scenario :
    NewClientFrom
      { MaxBufferSize := 10, MaxMetricsPerMessage := 2, MaxTries := 1,
        Conn := some (), Addr := "" } =
      NewClientResult.ok
        { MaxBufferSize := 10, MaxMetricsPerMessage := 2, MaxTries := 1,
          Conn := some (), Addr := "" } ∧
    SendMetricRel 10 cpuIdleMeta "1" 1700000000 false []
      (SendOutcome.ok [cpuIdle1]) ∧
    SendMetricRel 10 cpuIdleMeta "2" 1700000000 false [cpuIdle1]
      (SendOutcome.ok [cpuIdle1, cpuIdle2]) ∧
    SendMetricRel 10 cpuIdleMeta "3" 1700000000 false [cpuIdle1, cpuIdle2]
      (SendOutcome.ok [cpuIdle1, cpuIdle2, cpuIdle3]) ∧
    submitStep 2 1 (fun _ => none) 0 [cpuIdle1, cpuIdle2, cpuIdle3] =
      some (StepResult.sent
        "cpu.idle;host=a 1 1700000000\ncpu.idle;host=a 2 1700000000\n"
        1 [cpuIdle3]) := by
  refine ⟨by decide, ?_, ?_, ?_, by decide⟩
  · exact SendMetricRel.send (by decide)
  · exact SendMetricRel.send (by decide)
  · exact SendMetricRel.send (by decide)

lemma smsAux_success (w : Nat → Option String) :
    ∀ (k i fuel : Nat) (last : Option String), k < fuel →
      w (i + k) = none → (∀ j, j < k → w (i + j) ≠ none) →
      smsAux w i fuel last = (k + 1, Except.ok ()) := by
  intro k
  induction k with
  | zero =>
    intro i fuel last hk hs _
    cases fuel with
    | zero => omega
    | succ f =>
      simp only [Nat.add_zero] at hs
      simp [smsAux, hs]
  | succ k ih =>
    intro i fuel last hk hs hmin
    cases fuel with
    | zero => omega
    | succ f =>
      have h0 : w i ≠ none := by
        have := hmin 0 (by omega)
        simpa using this
      obtain ⟨e, he⟩ : ∃ e, w i = some e := by
        cases hw : w i with
        | none => exact absurd hw h0
        | some e => exact ⟨e, rfl⟩
      have hrec : smsAux w (i + 1) f (some e) = (k + 1, Except.ok ()) := by
        refine ih (i + 1) f (some e) (by omega) ?_ ?_
        · rw [show i + 1 + k = i + (k + 1) by omega]
          exact hs
        · intro j hj
          rw [show i + 1 + j = i + (j + 1) by omega]
          exact hmin (j + 1) (by omega)
      simp [smsAux, he, hrec]

lemma smsAux_allfail (w : Nat → Option String) :
    ∀ (fuel i : Nat) (last : Option String),
      (∀ j, j < fuel → w (i + j) ≠ none) →
      smsAux w i fuel last =
        (fuel, Except.error (if fuel = 0 then last else w (i + fuel - 1))) := by
  intro fuel
  induction fuel with
  | zero =>
    intro i last _
    simp [smsAux]
  | succ f ih =>
    intro i last h
    have h0 : w i ≠ none := by
      have := h 0 (by omega)
      simpa using this
    obtain ⟨e, he⟩ : ∃ e, w i = some e := by
      cases hw : w i with
      | none => exact absurd hw h0
      | some e => exact ⟨e, rfl⟩
    have hrec : smsAux w (i + 1) f (some e) =
        (f, Except.error (if f = 0 then some e else w (i + 1 + f - 1))) := by
      refine ih (i + 1) (some e) ?_
      intro j hj
      rw [show i + 1 + j = i + (j + 1) by omega]
      exact h (j + 1) (by omega)
    simp only [smsAux, he, hrec]
    cases f with
    | zero => simp [he]
    | succ f2 =>
      simp only [Nat.succ_ne_zero, if_false]
      rw [show i + 1 + (f2 + 1) - 1 = i + (f2 + 1 + 1) - 1 by omega]

/-- Serialization of a batch of metrics with non-empty names never
panics. -/
lemma batchStrings_total :
    ∀ (b : List Metric), (∀ s, s ∈ b → s.Name ≠ []) →
      ∃ strs, batchStrings b = some strs := by
  intro b
  induction b with
  | nil =>
    intro _
    exact ⟨[], rfl⟩
  | cons x xs ih =>
    intro h
    obtain ⟨strs, hstrs⟩ := ih fun s hs => h s (List.mem_cons_of_mem _ hs)
    obtain ⟨s0, hs0⟩ : ∃ s0, metricString? x = some s0 := by
      cases hn : x.Name with
      | nil => exact absurd hn (h x (List.mem_cons_self x xs))
      | cons a l => exact ⟨_, metricString?_eq_join x a l hn⟩
    refine ⟨s0 :: strs, ?_⟩
    simp [batchStrings, hs0, hstrs]

/-- C3: over any write behaviour, if some attempt among the first
`MaxTries` succeeds (all earlier ones failing), `SubmitMetricsString`
returns nil right there, having made exactly the attempts up to the
successful one; if all `MaxTries` attempts fail, it makes exactly
`MaxTries` attempts and returns the error carrying the reported try
count and the last attempt's underlying error; and in that case the
`Submit` loop stops at the failed batch, with the retries of that batch
as the only write attempts of the whole run. -/
theorem c3_retry_semantics (mt : Nat) (w : Nat → Option String) :
    (∀ i, i < mt → w i = none → (∀ j, j < i → w j ≠ none) →
      submitMetricsString mt w = (i + 1, Except.ok ())) ∧
    (0 < mt → (∀ i, i < mt → w i ≠ none) →
      submitMetricsString mt w = (mt, Except.error (mt, w (mt - 1)))) ∧
    (∀ n fuel q b r, dequeueBatch n q = some (b, r) →
      (∀ s, s ∈ b → s.Name ≠ []) → 0 < mt →
      (∀ i, i < mt → w i ≠ none) →
      submitLoop n mt w (fuel + 1) 0 q =
        some (LoopResult.failed (mt, w (mt - 1)) r mt)) := by
  have hz : (fun i => w (0 + i)) = w := by
    funext i
    simp
  refine ⟨?_, ?_, ?_⟩
  · intro i hi hs hmin
    unfold submitMetricsString
    rw [smsAux_success w i 0 mt none hi (by simpa using hs)
      (fun j hj => by simpa using hmin j hj)]
    rfl
  · intro hmt hfail
    unfold submitMetricsString
    rw [smsAux_allfail w mt 0 none (fun j hj => by simpa using hfail j hj)]
    simp [show ¬ mt = 0 by omega, Except.mapError]
  · intro n fuel q b r hdq hnames hmt hfail
    obtain ⟨strs, hstrs⟩ := batchStrings_total b hnames
    have hsms : submitMetricsString mt (fun i => w (0 + i)) =
        (mt, Except.error (mt, w (mt - 1))) := by
      rw [hz]
      unfold submitMetricsString
      rw [smsAux_allfail w mt 0 none (fun j hj => by simpa using hfail j hj)]
      simp [show ¬ mt = 0 by omega, Except.mapError]
    show submitLoop n mt w (fuel + 1) 0 q = _
    unfold submitLoop
    unfold submitStep
    rw [hdq]
    simp only [hstrs, hsms]
    simp

/-- Witness for C3: success on the second of three attempts; exhaustion
of two attempts; loop termination after the failed first batch. -/
theorem c3_retry_semantics_witness :
    submitMetricsString 3 (fun i => if i = 0 then some "e0" else none) =
      (2, Except.ok ()) ∧
    submitMetricsString 2 (fun _ => some "boom") =
      (2, Except.error (2, some "boom")) ∧
    submitLoop 2 2 (fun _ => some "boom") 1 0 [sampleA] =
      some (LoopResult.failed (2, some "boom") [] 2) :=
  ⟨(c3_retry_semantics 3 (fun i => if i = 0 then some "e0" else none)).1 1
      (by decide) (by decide) (by decide),
   (c3_retry_semantics 2 (fun _ => some "boom")).2.1 (by decide) (by decide),
   (c3_retry_semantics 2 (fun _ => some "boom")).2.2 2 0 [sampleA] [sampleA] []
      (by decide) (by decide) (by decide) (by decide)⟩

lemma take_set_ge (x : String) :
    ∀ (l : List String) (i n : Nat), n ≤ i → (l.set i x).take n = l.take n := by
  intro l
  induction l with
  | nil =>
    intro i n _
    simp
  | cons a as ih =>
    intro i n h
    cases i with
    | zero =>
      cases n with
      | zero => simp
      | succ n2 => omega
    | succ i2 =>
      cases n with
      | zero => simp
      | succ n2 =>
        simp only [List.set, List.take_succ_cons]
        rw [ih i2 n2 (by omega)]

lemma take_succ_set (x : String) :
    ∀ (l : List String) (n : Nat), n < l.length →
      (l.set n x).take (n + 1) = l.take n ++ [x] := by
  intro l
  induction l with
  | nil =>
    intro n h
    simp at h
  | cons a as ih =>
    intro n h
    cases n with
    | zero => simp
    | succ n2 =>
      simp only [List.set, List.take_succ_cons, List.cons_append]
      rw [ih n2 (by simpa using h)]

lemma getD_set_self :
    ∀ (h : Heap) (a : Nat) (nb : List String), a < h.length →
      List.getD (h.set a nb) a [] = nb := by
  intro h
  induction h with
  | nil =>
    intro a nb ha
    simp at ha
  | cons x xs ih =>
    intro a nb ha
    cases a with
    | zero => simp
    | succ a2 =>
      simp only [List.set]
      simpa using ih a2 nb (by simpa using ha)

lemma getD_append_lt :
    ∀ (h : Heap) (nb : List String) (a : Nat), a < h.length →
      List.getD (h ++ [nb]) a [] = List.getD h a [] := by
  intro h
  induction h with
  | nil =>
    intro nb a ha
    simp at ha
  | cons x xs ih =>
    intro nb a ha
    cases a with
    | zero => simp
    | succ a2 =>
      simpa using ih nb a2 (by simpa using ha)

lemma getD_append_self (h : Heap) (nb : List String) :
    List.getD (h ++ [nb]) h.length [] = nb := by
  induction h with
  | nil => simp
  | cons x xs ih => exact ih

/-- C4 counterexample: a reachable chain of `SubMetric` calls in which
the parent's name slice has spare capacity; deriving a second child
from the same parent overwrites the backing-array slot holding the
first child's appended segment, so the first child's name silently
changes — parent and children do share mutable state. -/
theorem c4_counterexample :
    sliceView ceChild1.1 ceChild1.2.Name =
      sliceView ceStep2.1 ceStep2.2.Name ++ ["avg"] ∧
    sliceView ceChild2.1 ceChild2.2.Name =
      sliceView ceStep2.1 ceStep2.2.Name ++ ["max"] ∧
    sliceView ceChild2.1 ceChild1.2.Name = ["cpu", "idle", "load", "max"] ∧
    sliceView ceChild2.1 ceChild1.2.Name ≠
      sliceView ceStep2.1 ceStep2.2.Name ++ ["avg"] := by
  refine ⟨by decide, by decide, by decide, by decide⟩

/-- The two frame facts about `goAppend`: the returned slice shows the
old elements plus `x`, and the argument slice still shows the old
elements. -/
lemma goAppend_view (h : Heap) (s : GoSlice) (x : String)
    (hlen : s.len ≤ (backing h s).length) (harr : s.arr < h.length) :
    sliceView (goAppend h s x).1 (goAppend h s x).2 =
      sliceView h s ++ [x] ∧
    sliceView (goAppend h s x).1 s = sliceView h s := by
  by_cases hlt : s.len < (backing h s).length
  · have hg : goAppend h s x =
        (List.set h s.arr ((backing h s).set s.len x),
         { arr := s.arr, len := s.len + 1 }) := by
      unfold goAppend
      rw [if_pos hlt]
    rw [hg]
    constructor
    · show List.take (s.len + 1)
        (List.getD (h.set s.arr ((backing h s).set s.len x)) s.arr []) = _
      rw [getD_set_self h s.arr _ harr]
      exact take_succ_set x (backing h s) s.len hlt
    · show List.take s.len
        (List.getD (h.set s.arr ((backing h s).set s.len x)) s.arr []) = _
      rw [getD_set_self h s.arr _ harr]
      exact take_set_ge x (backing h s) s.len s.len le_rfl
  · have hg : goAppend h s x =
        (h ++ [padTo ((backing h s).take s.len ++ [x])
                (growCap (backing h s).length)],
         { arr := h.length, len := s.len + 1 }) := by
      unfold goAppend
      rw [if_neg hlt]
    rw [hg]
    constructor
    · show List.take (s.len + 1)
        (List.getD (h ++ [padTo ((backing h s).take s.len ++ [x])
          (growCap (backing h s).length)]) h.length []) = _
      rw [getD_append_self]
      unfold padTo
      have hlen2 : ((backing h s).take s.len ++ [x]).length = s.len + 1 := by
        simp only [List.length_append, List.length_take, List.length_cons,
          List.length_nil]
        omega
      rw [← hlen2, List.take_left]
      rfl
    · show List.take s.len
        (List.getD (h ++ [padTo ((backing h s).take s.len ++ [x])
          (growCap (backing h s).length)]) s.arr []) = _
      rw [getD_append_lt h _ s.arr harr]
      rfl

/-- C4 (amended): `SubMetric` returns a child whose visible name is the
parent's visible name with the lower-cased segment appended and whose
tags are the supplied mapping, and the parent's visible name is
unchanged by the call; the child may however share the parent's
backing array, so a later `SubMetric` on the same parent can mutate
the child (see the counterexample). -/
theorem c4_submetric_frame (h : Heap) (m : MetricMetadataS) (seg : String)
    (tags : List (String × String))
    (hlen : m.Name.len ≤ (backing h m.Name).length)
    (harr : m.Name.arr < h.length) :
    sliceView (SubMetricS h m seg tags).1 (SubMetricS h m seg tags).2.Name =
      sliceView h m.Name ++ [goToLower seg] ∧
    (SubMetricS h m seg tags).2.Tags = tags ∧
    sliceView (SubMetricS h m seg tags).1 m.Name = sliceView h m.Name := by
  obtain ⟨h1, h2⟩ := goAppend_view h m.Name (goToLower seg) hlen harr
  exact ⟨h1, rfl, h2⟩

/-- Witness for C4's amended theorem: appending to a full one-slot
parent. -/
theorem c4_submetric_frame_witness :
    sliceView (SubMetricS [["cpu"]] ceRoot "idle" []).1
      (SubMetricS [["cpu"]] ceRoot "idle" []).2.Name =
      sliceView [["cpu"]] ceRoot.Name ++ [goToLower "idle"] ∧
    (SubMetricS [["cpu"]] ceRoot "idle" []).2.Tags = [] ∧
    sliceView (SubMetricS [["cpu"]] ceRoot "idle" []).1 ceRoot.Name =
      sliceView [["cpu"]] ceRoot.Name :=
  c4_submetric_frame [["cpu"]] ceRoot "idle" [] (by decide) (by decide)

end GoGraphite
